import Mathlib

/-!
Verification of the per-tick simulation of the Turtle Adventure game
(`turtle_adventure.py`).  Geometry (positions, distances, headings) is
embedded over the real numbers, modelling Python floats as exact reals.
The two patrol state machines (the random walker and the fencing enemy)
are embedded over the rationals so that their iterated dynamics stay
executable.  Rendering, canvas handles and colors are carried only where
they appear as stored data.
-/

namespace TurtleAdventure

open scoped Classical

/-- Euclidean distance between two points, as computed by
`((x2-x1)**2 + (y2-y1)**2) ** 0.5` in the source. -/
noncomputable def distance (x1 y1 x2 y2 : ℝ) : ℝ :=
  Real.sqrt ((x2 - x1) ^ 2 + (y2 - y1) ^ 2)

/-- The player's home (lines 87-134): a fixed center position and a size. -/
structure Home where
  x : ℝ
  y : ℝ
  size : ℝ

/-- `Home.contains` (lines 128-134): `x1 <= x <= x2 and y1 <= y <= y2`
with `x1, x2 = self.x - size/2, self.x + size/2` and likewise for `y`. -/
def Home.contains (h : Home) (px py : ℝ) : Prop :=
  (h.x - h.size / 2 ≤ px ∧ px ≤ h.x + h.size / 2) ∧
  (h.y - h.size / 2 ≤ py ∧ py ≤ h.y + h.size / 2)

/-- The square hit-box test shared by all enemies (lines 241-245):
strict comparisons on both axes against the `size`-square centered on
`(ex, ey)`. -/
def hitsBox (ex ey size px py : ℝ) : Prop :=
  (ex - size / 2 < px ∧ px < ex + size / 2) ∧
  (ey - size / 2 < py ∧ py < ey + size / 2)

/-- An enemy's stored data (lines 215-221): position plus the `size` and
`color` recorded by `Enemy.__init__`. -/
structure Enemy where
  x : ℝ
  y : ℝ
  size : ℝ
  color : String

/-- `Enemy.__init__` (lines 215-221): stores `size` and `color` with no
validation; the position starts at the game-element default. -/
def Enemy.init (size : ℝ) (color : String) : Enemy :=
  { x := 0, y := 0, size := size, color := color }

/-- `Enemy.hits_player` (lines 237-245) applied to a player position. -/
def Enemy.hits_player (e : Enemy) (px py : ℝ) : Prop :=
  hitsBox e.x e.y e.size px py

/-- The waypoint state the player reads (lines 30-84): the `active` flag
and the target position. -/
structure Waypoint where
  active : Bool
  x : ℝ
  y : ℝ

/-- The heading computed by `turtle.towards(x, y)`: the atan2 of the
coordinate deltas, i.e. the argument of the complex number `dx + i*dy`
(`Complex.arg (0 : ℂ) = 0`, matching `math.atan2(0, 0) = 0`). -/
noncomputable def towardsHeading (dx dy : ℝ) : ℝ :=
  Complex.arg ⟨dx, dy⟩

/-- Result of one `Player.update` tick: the new position, the waypoint's
activity after the tick, and whether the game-won transition was
signalled. -/
structure PlayerTick where
  x : ℝ
  y : ℝ
  wpActive : Prop
  won : Prop

/-- `Player.update` (lines 173-183).  The win check signals `game_over_win`
when home contains the position, and control then falls through to the
waypoint-seeking block: when the waypoint is active the turtle turns
toward it and moves forward by `speed` (displacement
`speed * (cos heading, sin heading)`), after which the waypoint is
deactivated when the remaining distance is below `speed`. -/
noncomputable def playerUpdate (home : Home) (wp : Waypoint) (px py speed : ℝ) :
    PlayerTick :=
  let won := home.contains px py
  if wp.active then
    let hd := towardsHeading (wp.x - px) (wp.y - py)
    let nx := px + speed * Real.cos hd
    let ny := py + speed * Real.sin hd
    { x := nx, y := ny,
      wpActive := ¬ distance nx ny wp.x wp.y < speed, won := won }
  else
    { x := px, y := py, wpActive := False, won := won }

/-- `Chasing_Enemy.chasing_to_player` (lines 335-343): the direction to the
player is normalized only when its magnitude is nonzero, then the position
advances by `direction * 1.2` on each axis. -/
noncomputable def chasing_to_player (cx cy px py : ℝ) : ℝ × ℝ :=
  let dx := px - cx
  let dy := py - cy
  let mag := Real.sqrt (dx ^ 2 + dy ^ 2)
  let dx1 := if mag ≠ 0 then dx / mag else dx
  let dy1 := if mag ≠ 0 then dy / mag else dy
  (cx + dx1 * 1.2, cy + dy1 * 1.2)

/-- The stealth enemy's stored data (lines 427-436): position, size, the
detection radius and the `detected` flag. -/
structure Stealth_Circle where
  x : ℝ
  y : ℝ
  size : ℝ
  detection : ℝ
  detected : Bool

/-- `Stealth_Circle.__init__` (lines 428-436): `detection = 100`,
`detected = False`; `size` is stored unvalidated. -/
def Stealth_Circle.init (size : ℝ) : Stealth_Circle :=
  { x := 0, y := 0, size := size, detection := 100, detected := false }

/-- `Stealth_Circle.is_near_by` (lines 443-445): Euclidean distance to the
player strictly below `detection`. -/
noncomputable def Stealth_Circle.is_near_by (st : Stealth_Circle) (px py : ℝ) :
    Prop :=
  Real.sqrt ((px - st.x) ^ 2 + (py - st.y) ^ 2) < st.detection

/-- `Stealth_Circle.update` (lines 448-456): two sequential conditionals on
the `detected` flag (the second one reads the flag already written by the
first), then the unconditional hit test whose outcome is the lose signal. -/
noncomputable def Stealth_Circle.update (st : Stealth_Circle) (px py : ℝ) :
    Stealth_Circle × Prop :=
  let st1 :=
    if st.is_near_by px py ∧ st.detected = false then
      { st with detected := true } else st
  let st2 :=
    if st1.detected = true ∧ ¬ st1.is_near_by px py then
      { st1 with detected := false } else st1
  (st2, hitsBox st2.x st2.y st2.size px py)

/-- Horizontal direction of the random walker: which of `moving_right` /
`moving_left` is stored in `self.__state`. -/
inductive HDir
  | right
  | left
deriving DecidableEq

/-- Vertical direction of the random walker: which of `moving_down` /
`moving_up` is stored in `self.__state_height`. -/
inductive VDir
  | up
  | down
deriving DecidableEq

/-- Motion state of `Enemy_walk_random`: position plus the two direction
states. -/
structure WalkerState where
  x : ℚ
  y : ℚ
  hdir : HDir
  vdir : VDir
deriving DecidableEq

/-- `Enemy_walk_random.update` motion (lines 271-303): the unconditional
`+1/+1` drift, then `self.__state()` (one horizontal step of `speed`,
flipping on the width/0 bounds checked after the move), then
`self.__state_height()` (one vertical step, flipping on the height/0
bounds).  The hit test on lines 276-277 reads but never moves the enemy,
so it is not part of the motion state. -/
def walkerUpdate (width height speed : ℚ) (s : WalkerState) : WalkerState :=
  let x1 := s.x + 1
  let y1 := s.y + 1
  let hstep : ℚ × HDir :=
    match s.hdir with
    | .right =>
        let nx := x1 + speed
        (nx, if nx > width then .left else .right)
    | .left =>
        let nx := x1 - speed
        (nx, if nx < 0 then .right else .left)
  let vstep : ℚ × VDir :=
    match s.vdir with
    | .up =>
        let ny := y1 + speed
        (ny, if ny > height then .down else .up)
    | .down =>
        let ny := y1 - speed
        (ny, if ny < 0 then .up else .down)
  { x := hstep.1, y := vstep.1, hdir := hstep.2, vdir := vstep.2 }

/-- The four states of `FencingEnemy`: which of `moving_right`,
`moving_down`, `moving_left`, `moving_up` is stored in `self.__state`. -/
inductive FState
  | right
  | down
  | left
  | up
deriving DecidableEq

/-- The fixed patrol cycle: right, down, left, up, right. -/
def FState.next : FState → FState
  | .right => .down
  | .down => .left
  | .left => .up
  | .up => .right

/-- Motion state of `FencingEnemy`: position plus the current patrol
state. -/
structure FencerState where
  x : ℚ
  y : ℚ
  st : FState
deriving DecidableEq

/-- The bound check guarding motion in the fencer's current state
(lines 381-404): e.g. in `moving_right`, `self.x < home.x + home.size/2`. -/
def fencerGuard (hx hy hsize : ℚ) (s : FencerState) : Prop :=
  match s.st with
  | .right => s.x < hx + hsize / 2
  | .down => s.y < hy + hsize / 2
  | .left => s.x > hx - hsize / 2
  | .up => s.y > hy - hsize / 2

/-- One `FencingEnemy.update` tick of motion (lines 381-412): in each state,
move by `speed` along one axis while the bound check holds, otherwise
switch `self.__state` to the next state of the cycle without moving.
The hit test on lines 411-412 reads but never moves the enemy. -/
def fencerUpdate (hx hy hsize speed : ℚ) (s : FencerState) : FencerState :=
  match s.st with
  | .right =>
      if s.x < hx + hsize / 2 then { s with x := s.x + speed }
      else { s with st := .down }
  | .down =>
      if s.y < hy + hsize / 2 then { s with y := s.y + speed }
      else { s with st := .left }
  | .left =>
      if s.x > hx - hsize / 2 then { s with x := s.x - speed }
      else { s with st := .up }
  | .up =>
      if s.y > hy - hsize / 2 then { s with y := s.y - speed }
      else { s with st := .right }

/-- `n` consecutive `FencingEnemy.update` ticks. -/
def fencerIter (hx hy hsize speed : ℚ) : ℕ → FencerState → FencerState
  | 0, s => s
  | n + 1, s => fencerUpdate hx hy hsize speed (fencerIter hx hy hsize speed n s)

/-- The corner of the Home square at which the generator places every
fencing enemy (lines 516-518, 536-553). -/
def fencerStart (hx hy hsize : ℚ) : FencerState :=
  { x := hx - hsize / 2, y := hy - hsize / 2, st := .right }

/-- `FencingEnemy.__init__` data (lines 362-371): `size`, `color` and
`speed` are stored with no validation. -/
structure FencingEnemy where
  x : ℚ
  y : ℚ
  size : ℚ
  color : String
  speed : ℚ

/-- `FencingEnemy.__init__` (lines 362-371): stores its parameters with no
validation. -/
def FencingEnemy.init (size : ℚ) (color : String) (speed : ℚ) : FencingEnemy :=
  { x := 0, y := 0, size := size, color := color, speed := speed }

/-- Reachability invariant of the fencer trajectory: after each completed
phase the coordinate fixed during the next phase has already passed the
finished phase's bound. -/
def fencerInv (hx hy hsize : ℚ) (s : FencerState) : Prop :=
  match s.st with
  | .right => True
  | .down => hx + hsize / 2 ≤ s.x
  | .left => hy + hsize / 2 ≤ s.y
  | .up => s.x ≤ hx - hsize / 2

/-- Lower bound on the patrol distance still to be travelled before the
current cycle can finish, capped at `hsize` per remaining phase. -/
def fencerMeasure (hx hy hsize : ℚ) (s : FencerState) : ℚ :=
  match s.st with
  | .right =>
      min (max (hx + hsize / 2 - s.x) 0) hsize +
        min (max (hy + hsize / 2 - s.y) 0) hsize + 2 * hsize
  | .down => min (max (hy + hsize / 2 - s.y) 0) hsize + 2 * hsize
  | .left => min (max (s.x - (hx - hsize / 2)) 0) hsize + hsize
  | .up => min (max (s.y - (hy - hsize / 2)) 0) hsize

/-- Claim C3: `Enemy.hits_player` returns true iff the player's x is
strictly between `enemy.x - size/2` and `enemy.x + size/2` and the player's
y is strictly between `enemy.y - size/2` and `enemy.y + size/2`; a player
whose coordinate lies exactly on the hit-box boundary is not a hit. -/
theorem hits_player_strict_interior (e : Enemy) (px py : ℝ) :
    (e.hits_player px py ↔
      |px - e.x| < e.size / 2 ∧ |py - e.y| < e.size / 2) ∧
    ((|px - e.x| = e.size / 2 ∨ |py - e.y| = e.size / 2) →
      ¬ e.hits_player px py) := by
  have hiff : e.hits_player px py ↔
      |px - e.x| < e.size / 2 ∧ |py - e.y| < e.size / 2 := by
    unfold Enemy.hits_player hitsBox
    rw [abs_lt, abs_lt]
    constructor
    · rintro ⟨⟨a, b⟩, c, d⟩
      exact ⟨⟨by linarith, by linarith⟩, by linarith, by linarith⟩
    · rintro ⟨⟨a, b⟩, c, d⟩
      exact ⟨⟨by linarith, by linarith⟩, by linarith, by linarith⟩
  refine ⟨hiff, ?_⟩
  rintro (h | h) hh
  · have hlt := (hiff.1 hh).1
    rw [h] at hlt
    exact lt_irrefl _ hlt
  · have hlt := (hiff.1 hh).2
    rw [h] at hlt
    exact lt_irrefl _ hlt

/-- Witness for C3: the enemy of size 10 at the origin does not hit a
player standing exactly on the right edge of its hit-box. -/
theorem hits_player_strict_interior_w :
    ¬ Enemy.hits_player ⟨0, 0, 10, "Blue"⟩ 5 0 :=
  (hits_player_strict_interior ⟨0, 0, 10, "Blue"⟩ 5 0).2
    (Or.inl (by norm_num))

/-- Claim C4: `Home.contains (x, y)` returns true iff x lies within
`size/2` of Home's center x and y lies within `size/2` of Home's center y,
boundary included; any point with either coordinate farther than `size/2`
from the center is excluded. -/
theorem home_contains_within_half_size (h : Home) (px py : ℝ) :
    h.contains px py ↔
      |px - h.x| ≤ h.size / 2 ∧ |py - h.y| ≤ h.size / 2 := by
  unfold Home.contains
  rw [abs_le, abs_le]
  constructor
  · rintro ⟨⟨a, b⟩, c, d⟩
    exact ⟨⟨by linarith, by linarith⟩, by linarith, by linarith⟩
  · rintro ⟨⟨a, b⟩, c, d⟩
    exact ⟨⟨by linarith, by linarith⟩, by linarith, by linarith⟩

/-- Claim C9 (code evaluated at the failing input): the constructors
perform no validation, so an enemy with negative size and a fencer with
negative speed are constructed as ordinary objects storing the negative
values, instead of failing fast. -/
theorem negative_construction_accepted :
    (Enemy.init (-5) "Blue").size = -5 ∧
    (FencingEnemy.init 10 "yellow" (-1)).speed = -1 :=
  ⟨rfl, rfl⟩

/-- Claim C5: each RandomWalker tick first adds the unconditional +1/+1
drift, then one horizontal step of magnitude `speed` in the current
horizontal direction and one vertical step of magnitude `speed` in the
current vertical direction; the horizontal direction flips right-to-left
exactly when x exceeds the playfield width and left-to-right exactly when
x drops below 0, and the vertical direction flips analogously against the
playfield height and 0 (at most one flip per axis per tick, the direction
being a two-valued state set once per tick). -/
theorem walker_drift_step_and_flips (w h speed : ℚ) (s : WalkerState) :
    ((walkerUpdate w h speed s).x =
      s.x + 1 + (match s.hdir with | .right => speed | .left => -speed)) ∧
    ((walkerUpdate w h speed s).y =
      s.y + 1 + (match s.vdir with | .up => speed | .down => -speed)) ∧
    ((walkerUpdate w h speed s).hdir = .left ↔
      ((s.hdir = .right ∧ (walkerUpdate w h speed s).x > w) ∨
       (s.hdir = .left ∧ ¬ (walkerUpdate w h speed s).x < 0))) ∧
    ((walkerUpdate w h speed s).vdir = .up ↔
      ((s.vdir = .down ∧ (walkerUpdate w h speed s).y < 0) ∨
       (s.vdir = .up ∧ ¬ (walkerUpdate w h speed s).y > h))) := by
  obtain ⟨x, y, hd, vd⟩ := s
  cases hd <;> cases vd <;>
    refine ⟨by simp [walkerUpdate]; try ring, by simp [walkerUpdate]; try ring, ?_, ?_⟩ <;>
    simp only [walkerUpdate] <;> split_ifs <;> simp_all

/-- Claim C6: the fencer's motion state takes only the four cycle values;
every transition goes to the next state in the fixed cycle without
skipping; in each state the enemy moves by `speed` along one axis only
while the bound check against the Home-derived square holds, and
transitions (without moving) once the relevant coordinate reaches or
passes the bound, for every configured speed. -/
theorem fencer_cycle_step (hx hy hsize speed : ℚ) (s : FencerState) :
    ((fencerUpdate hx hy hsize speed s).st = s.st ∨
     (fencerUpdate hx hy hsize speed s).st = s.st.next) ∧
    (fencerGuard hx hy hsize s →
      (fencerUpdate hx hy hsize speed s).st = s.st ∧
      (match s.st with
       | .right => (fencerUpdate hx hy hsize speed s).x = s.x + speed ∧
                   (fencerUpdate hx hy hsize speed s).y = s.y
       | .down => (fencerUpdate hx hy hsize speed s).y = s.y + speed ∧
                  (fencerUpdate hx hy hsize speed s).x = s.x
       | .left => (fencerUpdate hx hy hsize speed s).x = s.x - speed ∧
                  (fencerUpdate hx hy hsize speed s).y = s.y
       | .up => (fencerUpdate hx hy hsize speed s).y = s.y - speed ∧
                (fencerUpdate hx hy hsize speed s).x = s.x)) ∧
    (¬ fencerGuard hx hy hsize s →
      (fencerUpdate hx hy hsize speed s).st = s.st.next ∧
      (fencerUpdate hx hy hsize speed s).x = s.x ∧
      (fencerUpdate hx hy hsize speed s).y = s.y) := by
  obtain ⟨x, y, st⟩ := s
  cases st <;>
    simp only [fencerUpdate, fencerGuard, FState.next] <;>
    split_ifs <;> simp_all

/-- Witness for C6: with Home at the origin of size 2 and speed 1, a
fencer at the starting corner moves right by 1, and a fencer whose x has
reached the right bound transitions to the moving-down state without
moving. -/
theorem fencer_cycle_step_w :
    (fencerUpdate 0 0 2 1 ⟨-1, -1, .right⟩).x = -1 + 1 ∧
    (fencerUpdate 0 0 2 1 ⟨1, -1, .right⟩).st = FState.right.next ∧
    (fencerUpdate 0 0 2 1 ⟨1, -1, .right⟩).x = 1 := by
  have h1 := (fencer_cycle_step 0 0 2 1 ⟨-1, -1, .right⟩).2.1
    (by norm_num [fencerGuard])
  have h2 := (fencer_cycle_step 0 0 2 1 ⟨1, -1, .right⟩).2.2
    (by norm_num [fencerGuard])
  exact ⟨h1.2.1, h2.1, h2.2.1⟩

/-- Claim C7: on every Sentinel tick the resulting alert flag is set iff
the Euclidean distance to the player is strictly below the detection
radius (so a dormant sentinel becomes alerted iff distance < radius and an
alerted one becomes dormant iff distance ≥ radius), the position is
unchanged, the radius stored at construction is 100, and the hit test is
the lose signal every tick regardless of alert state. -/
theorem stealth_update_square_wave (st : Stealth_Circle) (px py : ℝ) :
    ((st.update px py).1.detected = true ↔
      distance st.x st.y px py < st.detection) ∧
    (st.update px py).1.x = st.x ∧
    (st.update px py).1.y = st.y ∧
    ((st.update px py).2 ↔ hitsBox st.x st.y st.size px py) ∧
    (Stealth_Circle.init st.size).detection = 100 := by
  obtain ⟨sx, sy, ss, sd, sdet⟩ := st
  cases sdet <;>
    simp only [Stealth_Circle.update] <;>
    split_ifs with h1 h2 <;>
    simp_all [Stealth_Circle.is_near_by, Stealth_Circle.init, distance]

/-- Claim C8: on every Chaser tick, if the player's position coincides
exactly with the chaser's position the chaser does not move (no division
by zero); otherwise the chaser advances by exactly 1.2 units along the
unit vector from the chaser toward the player. -/
theorem chaser_step_unit_pursuit (cx cy px py : ℝ) :
    ((px, py) = (cx, cy) → chasing_to_player cx cy px py = (cx, cy)) ∧
    ((px, py) ≠ (cx, cy) →
      chasing_to_player cx cy px py =
        (cx + 1.2 * ((px - cx) / distance cx cy px py),
         cy + 1.2 * ((py - cy) / distance cx cy px py)) ∧
      distance cx cy (chasing_to_player cx cy px py).1
        (chasing_to_player cx cy px py).2 = 1.2) := by
  constructor
  · intro hcoin
    obtain ⟨h1, h2⟩ := Prod.mk.injEq .. ▸ hcoin
    simp [chasing_to_player, h1, h2]
  · intro hne
    have hne2 : px - cx ≠ 0 ∨ py - cy ≠ 0 := by
      by_contra hcon
      push_neg at hcon
      exact hne (Prod.ext (by linarith [hcon.1]) (by linarith [hcon.2]))
    have hsumpos : 0 < (px - cx) ^ 2 + (py - cy) ^ 2 := by
      rcases hne2 with h | h
      · have h2 : (px - cx) ^ 2 ≠ 0 := pow_ne_zero 2 h
        have h3 := lt_of_le_of_ne (sq_nonneg (px - cx)) (Ne.symm h2)
        nlinarith [sq_nonneg (py - cy)]
      · have h2 : (py - cy) ^ 2 ≠ 0 := pow_ne_zero 2 h
        have h3 := lt_of_le_of_ne (sq_nonneg (py - cy)) (Ne.symm h2)
        nlinarith [sq_nonneg (px - cx)]
    have hmagpos : 0 < Real.sqrt ((px - cx) ^ 2 + (py - cy) ^ 2) :=
      Real.sqrt_pos.2 hsumpos
    have hmagne : Real.sqrt ((px - cx) ^ 2 + (py - cy) ^ 2) ≠ 0 :=
      ne_of_gt hmagpos
    have hsq : Real.sqrt ((px - cx) ^ 2 + (py - cy) ^ 2) ^ 2 =
        (px - cx) ^ 2 + (py - cy) ^ 2 :=
      Real.sq_sqrt (le_of_lt hsumpos)
    have heq : chasing_to_player cx cy px py =
        (cx + 1.2 * ((px - cx) / distance cx cy px py),
         cy + 1.2 * ((py - cy) / distance cx cy px py)) := by
      simp only [chasing_to_player, distance, if_pos hmagne, Prod.mk.injEq]
      constructor <;> ring
    refine ⟨heq, ?_⟩
    rw [heq]
    simp only [distance]
    have hgen : ∀ a : ℝ, a = (1.2 : ℝ) ^ 2 → Real.sqrt a = 1.2 := by
      intro a ha
      rw [ha, Real.sqrt_sq (by norm_num)]
    apply hgen
    field_simp
    nlinarith [hsq]

/-- Counterexample to claim C1 as stated: with Home of size 20 at the
origin, the player at the origin (inside Home) and an active waypoint at
(100, 0), the tick signals game-won yet the waypoint-seeking move still
changes the player's position (to x = 5), because `Player.update` does not
return after calling `game_over_win`. -/
theorem player_win_keeps_moving_cex :
    (playerUpdate ⟨0, 0, 20⟩ ⟨true, 100, 0⟩ 0 0 5).won ∧
    (playerUpdate ⟨0, 0, 20⟩ ⟨true, 100, 0⟩ 0 0 5).x ≠ 0 := by
  have harg : towardsHeading (100 - 0) (0 - 0) = 0 := by
    have hz : (⟨(100 : ℝ) - 0, (0 : ℝ) - 0⟩ : ℂ) = ((100 : ℝ) : ℂ) := by
      rw [Complex.ext_iff]
      constructor <;> simp
    rw [towardsHeading, hz, Complex.arg_ofReal_of_nonneg (by norm_num)]
  constructor
  · show Home.contains ⟨0, 0, 20⟩ 0 0
    norm_num [Home.contains]
  · show (0 : ℝ) + 5 * Real.cos (towardsHeading (100 - 0) (0 - 0)) ≠ 0
    rw [harg, Real.cos_zero]
    norm_num

/-- Claim C1, amended: when the player's position lies within Home's
containment rectangle, `Player.update` signals game-won, but motion
processing is not stopped: the position and waypoint produced by the tick
are the same as with any home that does not contain the player. -/
theorem player_win_signal_and_motion (home home2 : Home) (wp : Waypoint)
    (px py speed : ℝ) (hc : home.contains px py) :
    (playerUpdate home wp px py speed).won ∧
    (playerUpdate home wp px py speed).x =
      (playerUpdate home2 wp px py speed).x ∧
    (playerUpdate home wp px py speed).y =
      (playerUpdate home2 wp px py speed).y ∧
    ((playerUpdate home wp px py speed).wpActive ↔
      (playerUpdate home2 wp px py speed).wpActive) := by
  by_cases h : wp.active <;>
    simp [playerUpdate, h, hc]

/-- Witness for the amended C1: the concrete win-tick of the
counterexample input moves the player exactly as a tick with a far-away
home does. -/
theorem player_win_signal_and_motion_w :
    (playerUpdate ⟨0, 0, 20⟩ ⟨true, 100, 0⟩ 0 0 5).won ∧
    (playerUpdate ⟨0, 0, 20⟩ ⟨true, 100, 0⟩ 0 0 5).x =
      (playerUpdate ⟨900, 300, 20⟩ ⟨true, 100, 0⟩ 0 0 5).x := by
  have h := player_win_signal_and_motion ⟨0, 0, 20⟩ ⟨900, 300, 20⟩
    ⟨true, 100, 0⟩ 0 0 5 (by norm_num [Home.contains])
  exact ⟨h.1, h.2.1⟩

/-- Claim C2: when the waypoint is active the player advances by exactly
`speed` along the unit vector from the player toward the waypoint (the
atan2 heading of the code), and the waypoint is deactivated on that tick
iff the distance from the moved player to the waypoint is below `speed`;
when the waypoint is inactive (and the player is not in Home) the position
is unchanged by the tick. -/
theorem player_seek_motion (home : Home) (wp : Waypoint) (px py speed : ℝ) :
    (wp.active = true → (px ≠ wp.x ∨ py ≠ wp.y) →
      (playerUpdate home wp px py speed).x =
        px + speed * ((wp.x - px) / distance px py wp.x wp.y) ∧
      (playerUpdate home wp px py speed).y =
        py + speed * ((wp.y - py) / distance px py wp.x wp.y) ∧
      (0 ≤ speed →
        distance px py (playerUpdate home wp px py speed).x
          (playerUpdate home wp px py speed).y = speed)) ∧
    (wp.active = true →
      (¬ (playerUpdate home wp px py speed).wpActive ↔
        distance (playerUpdate home wp px py speed).x
          (playerUpdate home wp px py speed).y wp.x wp.y < speed)) ∧
    (wp.active = false → ¬ home.contains px py →
      (playerUpdate home wp px py speed).x = px ∧
      (playerUpdate home wp px py speed).y = py) := by
  refine ⟨?_, ?_, ?_⟩
  · intro hact hne
    have hzne : (⟨wp.x - px, wp.y - py⟩ : ℂ) ≠ 0 := by
      intro h0
      rw [Complex.ext_iff] at h0
      simp only [Complex.zero_re, Complex.zero_im] at h0
      rcases hne with h | h
      · exact h (by linarith [h0.1])
      · exact h (by linarith [h0.2])
    have hsumpos : 0 < (wp.x - px) ^ 2 + (wp.y - py) ^ 2 := by
      rcases hne with h | h
      · have h1 : wp.x - px ≠ 0 := fun hz => h (by linarith)
        have h2 : (wp.x - px) ^ 2 ≠ 0 := pow_ne_zero 2 h1
        have h3 := lt_of_le_of_ne (sq_nonneg (wp.x - px)) (Ne.symm h2)
        nlinarith [sq_nonneg (wp.y - py)]
      · have h1 : wp.y - py ≠ 0 := fun hz => h (by linarith)
        have h2 : (wp.y - py) ^ 2 ≠ 0 := pow_ne_zero 2 h1
        have h3 := lt_of_le_of_ne (sq_nonneg (wp.y - py)) (Ne.symm h2)
        nlinarith [sq_nonneg (wp.x - px)]
    have hdpos : 0 < distance px py wp.x wp.y := Real.sqrt_pos.2 hsumpos
    have hdsq : distance px py wp.x wp.y ^ 2 =
        (wp.x - px) ^ 2 + (wp.y - py) ^ 2 :=
      Real.sq_sqrt (le_of_lt hsumpos)
    have habs : Complex.abs ⟨wp.x - px, wp.y - py⟩ = distance px py wp.x wp.y := by
      rw [Complex.abs_apply, Complex.normSq_mk, distance]
      congr 1
      ring
    have hcos : Real.cos (towardsHeading (wp.x - px) (wp.y - py)) =
        (wp.x - px) / distance px py wp.x wp.y := by
      rw [towardsHeading, Complex.cos_arg hzne, habs]
    have hsin : Real.sin (towardsHeading (wp.x - px) (wp.y - py)) =
        (wp.y - py) / distance px py wp.x wp.y := by
      rw [towardsHeading, Complex.sin_arg, habs]
    have hx1 : (playerUpdate home wp px py speed).x =
        px + speed * ((wp.x - px) / distance px py wp.x wp.y) := by
      simp [playerUpdate, hact, hcos]
    have hy1 : (playerUpdate home wp px py speed).y =
        py + speed * ((wp.y - py) / distance px py wp.x wp.y) := by
      simp [playerUpdate, hact, hsin]
    refine ⟨hx1, hy1, ?_⟩
    intro hsp
    rw [hx1, hy1]
    simp only [distance]
    have hgen : ∀ a : ℝ, a = speed ^ 2 → Real.sqrt a = speed := by
      intro a ha
      rw [ha, Real.sqrt_sq hsp]
    apply hgen
    have hdne : distance px py wp.x wp.y ≠ 0 := ne_of_gt hdpos
    field_simp
    nlinarith [hdsq]
  · intro hact
    simp only [playerUpdate, hact, if_true, Bool.true_eq]
    constructor
    · intro h
      exact not_not.1 h
    · intro h hcon
      exact hcon h
  · intro hact hnc
    simp [playerUpdate, hact]

/-- Witness for C2: for an active waypoint at (3, 4), the player at the
origin with speed 5 moves to x = 3; for an inactive waypoint the position
x stays 0. -/
theorem player_seek_motion_w :
    (playerUpdate ⟨900, 300, 20⟩ ⟨true, 3, 4⟩ 0 0 5).x = 3 ∧
    (playerUpdate ⟨900, 300, 20⟩ ⟨false, 3, 4⟩ 0 0 5).x = 0 := by
  have hd : distance 0 0 3 4 = 5 := by
    rw [distance, show ((3 : ℝ) - 0) ^ 2 + ((4 : ℝ) - 0) ^ 2 = 5 ^ 2 by norm_num,
      Real.sqrt_sq (by norm_num)]
  have h1 := (player_seek_motion ⟨900, 300, 20⟩ ⟨true, 3, 4⟩ 0 0 5).1 rfl
    (Or.inl (by norm_num))
  have h2 := (player_seek_motion ⟨900, 300, 20⟩ ⟨false, 3, 4⟩ 0 0 5).2.2 rfl
    (by norm_num [Home.contains])
  refine ⟨?_, h2.1⟩
  rw [h1.1]
  show (0 : ℝ) + 5 * ((3 - 0) / distance 0 0 3 4) = 3
  rw [hd]
  norm_num

/-- Witness for C8: a chaser exactly on the player does not move, and a
chaser at the origin chasing a player at (3, 4) (distance 5) moves to
(0.72, 0.96). -/
theorem chaser_step_unit_pursuit_w :
    chasing_to_player 10 10 10 10 = (10, 10) ∧
    chasing_to_player 0 0 3 4 = (0.72, 0.96) := by
  have hd : distance 0 0 3 4 = 5 := by
    rw [distance, show ((3 : ℝ) - 0) ^ 2 + ((4 : ℝ) - 0) ^ 2 = 5 ^ 2 by norm_num,
      Real.sqrt_sq (by norm_num)]
  have h1 := (chaser_step_unit_pursuit 10 10 10 10).1 rfl
  have h2 := (chaser_step_unit_pursuit 0 0 3 4).2
    (by intro h; rw [Prod.ext_iff] at h; norm_num at h)
  refine ⟨h1, ?_⟩
  rw [h2.1, hd]
  rw [Prod.ext_iff]
  norm_num

/-- One fencer tick preserves the reachability invariant. -/
theorem fencerInv_step (hx hy hsize speed : ℚ) (s : FencerState)
    (hI : fencerInv hx hy hsize s) :
    fencerInv hx hy hsize (fencerUpdate hx hy hsize speed s) := by
  obtain ⟨x, y, st⟩ := s
  cases st <;>
    simp only [fencerInv, fencerUpdate] at hI ⊢ <;>
    split_ifs with h <;>
    simp only [fencerInv] <;>
    first
      | trivial
      | linarith

/-- One fencer tick lowers the remaining-patrol measure by at most
`speed`, on states satisfying the invariant. -/
theorem fencerMeasure_step (hx hy hsize speed : ℚ) (hs : 0 ≤ speed)
    (hh : 0 ≤ hsize) (s : FencerState) (hI : fencerInv hx hy hsize s) :
    fencerMeasure hx hy hsize s - speed ≤
      fencerMeasure hx hy hsize (fencerUpdate hx hy hsize speed s) := by
  obtain ⟨x, y, st⟩ := s
  cases st <;>
    simp only [fencerInv] at hI <;>
    simp only [fencerUpdate] <;>
    split_ifs with h <;>
    simp only [fencerMeasure, min_def, max_def] <;>
    split_ifs <;>
    linarith

/-- The invariant holds along every iterated fencer trajectory. -/
theorem fencerInv_iter (hx hy hsize speed : ℚ) (s : FencerState)
    (hI : fencerInv hx hy hsize s) (n : ℕ) :
    fencerInv hx hy hsize (fencerIter hx hy hsize speed n s) := by
  induction n with
  | zero => exact hI
  | succ n ih => exact fencerInv_step hx hy hsize speed _ ih

/-- After `n` ticks the measure has dropped by at most `n * speed`. -/
theorem fencerMeasure_iter (hx hy hsize speed : ℚ) (hs : 0 ≤ speed)
    (hh : 0 ≤ hsize) (s : FencerState) (hI : fencerInv hx hy hsize s) (n : ℕ) :
    fencerMeasure hx hy hsize s - n * speed ≤
      fencerMeasure hx hy hsize (fencerIter hx hy hsize speed n s) := by
  induction n with
  | zero => simp [fencerIter]
  | succ n ih =>
      have h1 := fencerMeasure_step hx hy hsize speed hs hh
        (fencerIter hx hy hsize speed n s)
        (fencerInv_iter hx hy hsize speed s hI n)
      have h2 : fencerIter hx hy hsize speed (n + 1) s =
          fencerUpdate hx hy hsize speed (fencerIter hx hy hsize speed n s) :=
        rfl
      rw [h2]
      push_cast
      push_cast at ih
      linarith

/-- A tick entering the moving-right state from a non-right state must come
from the moving-up state with its bound reached. -/
theorem fencer_return_is_from_up (hx hy hsize speed : ℚ) (s : FencerState)
    (hst : s.st ≠ FState.right)
    (hst2 : (fencerUpdate hx hy hsize speed s).st = FState.right) :
    s.st = FState.up ∧ ¬ s.y > hy - hsize / 2 := by
  obtain ⟨x, y, st⟩ := s
  cases st <;>
    simp only [fencerUpdate] at hst hst2 ⊢ <;>
    split_ifs at hst2 with h <;>
    simp_all

/-- At the tick that leaves the moving-up state the measure has reached
zero. -/
theorem fencerMeasure_zero_of_up (hx hy hsize : ℚ) (hh : 0 ≤ hsize)
    (s : FencerState) (hst : s.st = FState.up)
    (hyb : ¬ s.y > hy - hsize / 2) :
    fencerMeasure hx hy hsize s = 0 := by
  obtain ⟨x, y, st⟩ := s
  have hyb2 : ¬ y > hy - hsize / 2 := hyb
  have hst2 : st = FState.up := hst
  subst hst2
  simp only [fencerMeasure]
  rw [max_eq_right (by linarith), min_eq_left hh]

/-- At the spawn corner the measure equals the patrol perimeter. -/
theorem fencerMeasure_start (hx hy hsize : ℚ) (hh : 0 ≤ hsize) :
    fencerMeasure hx hy hsize (fencerStart hx hy hsize) = 4 * hsize := by
  simp only [fencerMeasure, fencerStart]
  rw [show hx + hsize / 2 - (hx - hsize / 2) = hsize by ring,
    show hy + hsize / 2 - (hy - hsize / 2) = hsize by ring,
    max_eq_left hh, min_self]
  ring

/-- Claim C10: on any fencer tick in which a state transition occurs the
position is unchanged (the transition consumes the whole tick with zero
displacement), and consequently any trajectory from the spawn corner that
leaves the moving-right state and is found back in it after `n` ticks has
`n` strictly greater than the perimeter `4 * hsize` divided by the
speed. -/
theorem fencer_transition_tick_and_cycle_bound (hx hy hsize speed : ℚ)
    (hs : 0 < speed) (hh : 0 ≤ hsize) (n : ℕ)
    (hret : (fencerIter hx hy hsize speed n (fencerStart hx hy hsize)).st =
      FState.right)
    (hmid : ∃ m, m < n ∧
      (fencerIter hx hy hsize speed m (fencerStart hx hy hsize)).st ≠
        FState.right) :
    (∀ s : FencerState, (fencerUpdate hx hy hsize speed s).st ≠ s.st →
      (fencerUpdate hx hy hsize speed s).x = s.x ∧
      (fencerUpdate hx hy hsize speed s).y = s.y) ∧
    4 * hsize / speed < (n : ℚ) := by
  constructor
  · intro s hne
    obtain ⟨x, y, st⟩ := s
    cases st <;>
      simp only [fencerUpdate] at hne ⊢ <;>
      split_ifs at hne ⊢ <;>
      simp_all
  · classical
    obtain ⟨m, hmn, hPm⟩ := hmid
    set s0 := fencerStart hx hy hsize with hs0def
    set P : ℕ → Prop :=
      fun k => (fencerIter hx hy hsize speed k s0).st ≠ FState.right with hPdef
    have hPm2 : P m := hPm
    have hPn : ¬ P n := fun hcon => hcon hret
    set t := Nat.findGreatest P n with htdef
    have htP : P t := Nat.findGreatest_spec (Nat.le_of_lt hmn) hPm2
    have htle : t ≤ n := Nat.findGreatest_le n
    have htn : t < n := lt_of_le_of_ne htle fun he => hPn (he ▸ htP)
    have hnotP : ¬ P (t + 1) :=
      Nat.findGreatest_is_greatest (by rw [← htdef]; omega) (by omega)
    have hsucc : (fencerIter hx hy hsize speed (t + 1) s0).st = FState.right :=
      not_not.1 hnotP
    have hstep : fencerIter hx hy hsize speed (t + 1) s0 =
        fencerUpdate hx hy hsize speed (fencerIter hx hy hsize speed t s0) :=
      rfl
    have hup := fencer_return_is_from_up hx hy hsize speed
      (fencerIter hx hy hsize speed t s0) htP (by rw [← hstep]; exact hsucc)
    have hM0 : fencerMeasure hx hy hsize
        (fencerIter hx hy hsize speed t s0) = 0 :=
      fencerMeasure_zero_of_up hx hy hsize hh _ hup.1 hup.2
    have hInv0 : fencerInv hx hy hsize s0 := trivial
    have hMiter := fencerMeasure_iter hx hy hsize speed (le_of_lt hs) hh s0
      hInv0 t
    have hM4 : fencerMeasure hx hy hsize s0 = 4 * hsize :=
      fencerMeasure_start hx hy hsize hh
    rw [hM0, hM4] at hMiter
    have h4 : 4 * hsize / speed ≤ (t : ℚ) := by
      rw [div_le_iff₀ hs]
      linarith
    have htn2 : (t : ℚ) < (n : ℚ) := by exact_mod_cast htn
    linarith

/-- Witness for C10: with Home at the origin of size 2 and speed 1, a
fencer whose x reached the right bound transitions without displacement,
and the trajectory from the spawn corner is back in the moving-right state
after 12 ticks, with 12 > 4*2/1 = 8. -/
theorem fencer_transition_tick_and_cycle_bound_w :
    ((fencerUpdate 0 0 2 1 ⟨1, -1, .right⟩).x = 1 ∧
     (fencerUpdate 0 0 2 1 ⟨1, -1, .right⟩).y = -1) ∧
    4 * 2 / 1 < ((12 : ℕ) : ℚ) := by
  have h := fencer_transition_tick_and_cycle_bound 0 0 2 1 (by norm_num)
    (by norm_num) 12
    (by norm_num [fencerIter, fencerUpdate, fencerStart])
    ⟨3, by norm_num, by
      norm_num [fencerIter, fencerUpdate, fencerStart]
      try decide⟩
  refine ⟨h.1 ⟨1, -1, .right⟩ ?_, h.2⟩
  norm_num [fencerUpdate]
  try decide

end TurtleAdventure
